import Mathlib

/-!
Verification of the telemetry demo service (`main.go`): cart handlers,
metric instruments, the periodic resource sampler, startup wiring and the
span recorder contract. Definitions are shallow embeddings of the Go
source; components living in the OpenTelemetry SDK (instrument
registration, counter argument checking, span lifecycle) are modelled
from the specification and carry a doc comment saying so.
-/

namespace OtelDemo

/-! ### Cart handlers: memory-access-level (interleaved) semantics

`cartAddHandler` executes `cartCount = cartCount + 1` (a non-atomic load
followed by a store) and then `itemGauge.Record(ctx, cartCount)` (a fresh
load). `cartRemoveHandler` executes `if cartCount != 0 { cartCount =
cartCount - 1 }` (a load for the test, then a load and a store for the
decrement) and then records the gauge. Each of these memory accesses is
one micro-step; a schedule interleaves the micro-steps of several handler
invocations running on concurrent goroutines. -/

/-- Which handler a goroutine is running. -/
inductive HKind where
  | add
  | remove
deriving DecidableEq, Repr

/-- One goroutine executing a cart handler: its handler kind, program
counter into the micro-operations, and the local value it last loaded
from `cartCount`. -/
structure CartThread where
  kind : HKind
  pc : Nat
  tmp : Int
deriving DecidableEq, Repr

/-- Shared state plus the goroutines: the global `cartCount`, the values
recorded to `itemGauge` in order, and the per-goroutine states. -/
structure CartConfig where
  cartCount : Int
  gaugeRecords : List Int
  threads : List CartThread
deriving DecidableEq, Repr

/-- Execute one micro-operation of a single goroutine against the shared
state. For `add`: pc 0 loads `cartCount`, pc 1 stores `tmp + 1`, pc 2
records the (re-loaded) `cartCount` to the gauge. For `remove`: pc 0
loads `cartCount` for the zero test (skipping to pc 3 when zero), pc 1
re-loads `cartCount`, pc 2 stores `tmp - 1`, pc 3 records the gauge. -/
def cartMicroStep (count : Int) (gauge : List Int) (t : CartThread) :
    Int × List Int × CartThread :=
  match t.kind, t.pc with
  | HKind.add, 0 => (count, gauge, ⟨t.kind, 1, count⟩)
  | HKind.add, 1 => (t.tmp + 1, gauge, ⟨t.kind, 2, t.tmp⟩)
  | HKind.add, 2 => (count, gauge ++ [count], ⟨t.kind, 3, t.tmp⟩)
  | HKind.remove, 0 =>
      if count = 0 then (count, gauge, ⟨t.kind, 3, count⟩)
      else (count, gauge, ⟨t.kind, 1, count⟩)
  | HKind.remove, 1 => (count, gauge, ⟨t.kind, 2, count⟩)
  | HKind.remove, 2 => (t.tmp - 1, gauge, ⟨t.kind, 3, t.tmp⟩)
  | HKind.remove, 3 => (count, gauge ++ [count], ⟨t.kind, 4, t.tmp⟩)
  | _, _ => (count, gauge, t)

/-- Let goroutine `i` take its next micro-step (no-op if `i` is out of
range or the goroutine has finished). -/
def cartSchedStep (c : CartConfig) (i : Nat) : CartConfig :=
  match c.threads.get? i with
  | none => c
  | some t =>
      let r := cartMicroStep c.cartCount c.gaugeRecords t
      { cartCount := r.1, gaugeRecords := r.2.1, threads := c.threads.set i r.2.2 }

/-- Run a whole schedule (a list of goroutine indices, each entry meaning
that goroutine performs its next micro-step). -/
def cartRun (c : CartConfig) (sched : List Nat) : CartConfig :=
  sched.foldl cartSchedStep c

/-- A goroutine about to start a handler. -/
def freshThread (k : HKind) : CartThread := ⟨k, 0, 0⟩

/-- Initial configuration: `cartCount = 0`, no gauge records yet, the
given handler invocations pending. -/
def cartInit (ks : List HKind) : CartConfig :=
  ⟨0, [], ks.map freshThread⟩

/-- The schedule refuting C1: goroutines 0 and 1 (both `add`) first both
load `cartCount = 0`, then both store `1`; goroutine 2 (`add`) then runs
to completion; only afterwards does goroutine 3 (`remove`) run, so the
single remove does happen after all three adds. -/
def c1Sched : List Nat := [0, 1, 0, 0, 1, 1, 2, 2, 2, 3, 3, 3, 3]

/-- The schedule refuting C5: two goroutines each performing one `add`
(net sum 2), with both loads before either store. -/
def c5Sched : List Nat := [0, 1, 0, 1, 0, 1]

/-! ### Cart handlers: sequential semantics

When a handler invocation runs without interleaving, its effect on the
shared state collapses to a simple function. -/

/-- HTTP response produced by a handler. -/
structure HttpResponse where
  status : Nat
  body : String
deriving DecidableEq, Repr

/-- Shared cart state as seen by a sequential execution. -/
structure CartState where
  cartCount : Int
  gaugeRecords : List Int
deriving DecidableEq, Repr

/-- `cartAddHandler`, executed without interleaving: increment
`cartCount`, record it to `itemGauge`, respond 200. -/
def cartAddHandler (s : CartState) : CartState × HttpResponse :=
  let c := s.cartCount + 1
  (⟨c, s.gaugeRecords ++ [c]⟩,
   ⟨200, "Item added to cart. Number of items in cart: " ++ toString c ++ "."⟩)

/-- `cartRemoveHandler`, executed without interleaving: decrement
`cartCount` unless it is zero, record it to `itemGauge`, respond 200. -/
def cartRemoveHandler (s : CartState) : CartState × HttpResponse :=
  let c := if s.cartCount ≠ 0 then s.cartCount - 1 else s.cartCount
  (⟨c, s.gaugeRecords ++ [c]⟩,
   ⟨200, "Item removed from cart. Number of items in cart: " ++ toString c ++ "."⟩)

/-- One sequential handler invocation, by kind. -/
def cartSeqStep (s : CartState) (k : HKind) : CartState :=
  match k with
  | HKind.add => (cartAddHandler s).1
  | HKind.remove => (cartRemoveHandler s).1

/-- A finite sequence of sequential handler invocations. -/
def cartSeqRun (s : CartState) (ks : List HKind) : CartState :=
  ks.foldl cartSeqStep s

/-- The initial shared state of the process. -/
def cartInitState : CartState := ⟨0, []⟩

theorem cartSeqStep_nonneg (s : CartState) (k : HKind) (h : 0 ≤ s.cartCount) :
    0 ≤ (cartSeqStep s k).cartCount := by
  cases k with
  | add =>
      simp only [cartSeqStep, cartAddHandler]
      omega
  | remove =>
      simp only [cartSeqStep, cartRemoveHandler]
      split <;> omega

theorem cartSeqRun_nonneg (ks : List HKind) (s : CartState) (h : 0 ≤ s.cartCount) :
    0 ≤ (cartSeqRun s ks).cartCount := by
  induction ks generalizing s with
  | nil => exact h
  | cons k ks ih =>
      exact ih (cartSeqStep s k) (cartSeqStep_nonneg s k h)

/-- C1: under the interleaving `c1Sched` of three `cartAddHandler`
invocations followed by one `cartRemoveHandler` invocation, the final
`cartCount` is 1 and the last value recorded to `itemGauge` is 1 — not 2
as the claim requires of every interleaving. The first two adds both
load 0 and both store 1, losing one update. -/
theorem c1_interleaving_lost_update :
    (cartRun (cartInit [HKind.add, HKind.add, HKind.add, HKind.remove]) c1Sched).cartCount = 1 ∧
    (cartRun (cartInit [HKind.add, HKind.add, HKind.add, HKind.remove]) c1Sched).gaugeRecords
      = [1, 1, 2, 1] ∧
    (cartRun (cartInit [HKind.add, HKind.add, HKind.add, HKind.remove]) c1Sched).cartCount ≠ 2 := by
  refine ⟨by decide, by decide, by decide⟩

/-- C5: under the interleaving `c5Sched` of two concurrent
`cartAddHandler` invocations (net sum of the operations: 2), the final
`cartCount` is 1 — an update is lost, as the spec itself warns for the
unguarded global counter. -/
theorem c5_concurrent_adds_lose_update :
    (cartRun (cartInit [HKind.add, HKind.add]) c5Sched).cartCount = 1 ∧
    (cartRun (cartInit [HKind.add, HKind.add]) c5Sched).cartCount ≠ 2 := by
  refine ⟨by decide, by decide⟩

/-- C2: for every finite sequence of sequential handler invocations from
the initial state, `cartCount` stays ≥ 0; moreover `cartRemoveHandler`
invoked at `cartCount = 0` leaves the count unchanged and records 0 to
the gauge. -/
theorem c2_cartCount_nonneg :
    (∀ ks : List HKind, 0 ≤ (cartSeqRun cartInitState ks).cartCount) ∧
    (∀ s : CartState, s.cartCount = 0 →
      (cartRemoveHandler s).1.cartCount = s.cartCount ∧
      (cartRemoveHandler s).1.gaugeRecords = s.gaugeRecords ++ [0]) := by
  constructor
  · intro ks
    exact cartSeqRun_nonneg ks cartInitState (by decide)
  · intro s hz
    simp only [cartRemoveHandler, hz]
    simp

/-- Witness for C2 at the concrete sequence add, remove, remove and the
concrete zero-count state. -/
theorem c2_witness :
    0 ≤ (cartSeqRun cartInitState [HKind.add, HKind.remove, HKind.remove]).cartCount ∧
    (cartRemoveHandler ⟨0, [5]⟩).1.cartCount = (0 : Int) ∧
    (cartRemoveHandler ⟨0, [5]⟩).1.gaugeRecords = [5] ++ [0] := by
  refine ⟨c2_cartCount_nonneg.1 [HKind.add, HKind.remove, HKind.remove], ?_, ?_⟩
  · exact (c2_cartCount_nonneg.2 ⟨0, [5]⟩ rfl).1
  · exact (c2_cartCount_nonneg.2 ⟨0, [5]⟩ rfl).2

/-! ### Metric instrument registry and the periodic sampler

`collectMachineResourceMetrics` in `main.go` wakes on each tick of a
5-second ticker and calls `meter.Float64ObservableGauge` with the same
name and unit every time, discarding the returned instrument and error.
The meter implementation lives in the OpenTelemetry SDK, outside this
repository, so registration is modelled from the specification. -/

/-- Registration failure, per the specification taxonomy. -/
inductive RegError where
  | duplicateInstrument
deriving DecidableEq, Repr

/-- The set of registered instrument identities, each a (name, unit)
pair. -/
structure Registry where
  instruments : List (String × String)
deriving DecidableEq, Repr

/-- Modelled from the spec: instrument registration
(`RegisterCounter/Histogram/Gauge(name, unit, description)`) fails with
`DuplicateInstrumentError` when the (name, unit) identity is already
registered, and otherwise records the identity; the meter implementation
is in the SDK, not in this repository. -/
def registerInstrument (r : Registry) (nm ut : String) : Except RegError Registry :=
  if (nm, ut) ∈ r.instruments then Except.error RegError.duplicateInstrument
  else Except.ok ⟨r.instruments ++ [(nm, ut)]⟩

/-- Registration as performed by the sampler loop, which ignores the
returned error: on failure the registry is unchanged. -/
def registerOrKeep (r : Registry) (nm ut : String) : Registry :=
  match registerInstrument r nm ut with
  | Except.ok r' => r'
  | Except.error _ => r

/-- The instrument identities `main` registers before the sampler loop
starts: the error counter, the latency histogram and the cart item
gauge. -/
def mainRegistry : Registry :=
  ⟨[("api.request.error_counter", "{call}"),
    ("api.request.latency_seconds", "{s}"),
    ("api.cart.items", "{item}")]⟩

/-- Name of the observable gauge the sampler registers on every tick. -/
def gaugeName : String := "process.allocated_memory"

/-- Unit of the observable gauge the sampler registers on every tick. -/
def gaugeUnit : String := "{MB}"

/-- The tick period of the sampler, in seconds (`period = 5 *
time.Second`). -/
def samplerPeriodSeconds : Nat := 5

/-- Registry state after `n` ticks of the sampler loop. -/
def samplerRegistry : Nat → Registry
  | 0 => mainRegistry
  | n + 1 => registerOrKeep (samplerRegistry n) gaugeName gaugeUnit

/-- Result of the registration call attempted on tick `n + 1` (so
`tickRegisterResult 0` is the first tick). -/
def tickRegisterResult (n : Nat) : Except RegError Registry :=
  registerInstrument (samplerRegistry n) gaugeName gaugeUnit

theorem registerInstrument_mem (r r' : Registry) (nm ut : String)
    (h : registerInstrument r nm ut = Except.ok r') : (nm, ut) ∈ r'.instruments := by
  unfold registerInstrument at h
  split at h
  · exact absurd h (by simp)
  · cases h
    simp

theorem registerInstrument_dup (r : Registry) (nm ut : String)
    (h : (nm, ut) ∈ r.instruments) :
    registerInstrument r nm ut = Except.error RegError.duplicateInstrument := by
  unfold registerInstrument
  simp [h]

theorem samplerRegistry_mem (n : Nat) (h : 1 ≤ n) :
    (gaugeName, gaugeUnit) ∈ (samplerRegistry n).instruments := by
  induction n with
  | zero => exact absurd h (by decide)
  | succ n ih =>
      show (gaugeName, gaugeUnit) ∈ (registerOrKeep (samplerRegistry n) gaugeName gaugeUnit).instruments
      unfold registerOrKeep
      cases hn : n with
      | zero =>
          subst hn
          decide
      | succ m =>
          have hmem := ih (by omega)
          rw [registerInstrument_dup _ _ _ (by rw [hn] at hmem; exact hmem)]
          rw [hn] at hmem
          exact hmem

/-- C3: registering a second instrument with the same (name, unit)
identity fails; consequently the sampler loop, which registers the
observable gauge `process.allocated_memory` with unit `{MB}` on every
tick, succeeds on the first tick and gets a `duplicateInstrument` error
on every later tick. -/
theorem c3_duplicate_registration :
    (∀ (r r' : Registry) (nm ut : String), registerInstrument r nm ut = Except.ok r' →
      registerInstrument r' nm ut = Except.error RegError.duplicateInstrument) ∧
    (∃ r, tickRegisterResult 0 = Except.ok r) ∧
    (∀ n, 1 ≤ n → tickRegisterResult n = Except.error RegError.duplicateInstrument) := by
  refine ⟨?_, ?_, ?_⟩
  · intro r r' nm ut h
    exact registerInstrument_dup r' nm ut (registerInstrument_mem r r' nm ut h)
  · exact ⟨⟨mainRegistry.instruments ++ [(gaugeName, gaugeUnit)]⟩, by rfl⟩
  · intro n hn
    exact registerInstrument_dup _ _ _ (samplerRegistry_mem n hn)

/-- Witness for C3: a concrete successful registration whose repetition
fails, and the second tick of the sampler failing. -/
theorem c3_witness :
    registerInstrument ⟨[("x", "{1}")]⟩ "x" "{1}"
      = Except.error RegError.duplicateInstrument ∧
    tickRegisterResult 1 = Except.error RegError.duplicateInstrument := by
  constructor
  · exact c3_duplicate_registration.1 ⟨[]⟩ ⟨[("x", "{1}")]⟩ "x" "{1}" (by rfl)
  · exact c3_duplicate_registration.2.2 1 (by decide)

/-! ### The sampler loop itself (C4)

The body of `collectMachineResourceMetrics` is a `for { select { case
<-ticker.C: ... } }` loop: on each tick it re-registers the observable
gauge (discarding the result) and contains no `return`, `break` or
`panic`. The registered callback reads `runtime.MemStats`, observes
`Alloc / Mb` and returns a nil error. Real time is abstracted to the
sequence of ticks; the allocated-memory readings are an arbitrary
stream. -/

/-- Number of bytes in a MB (`var Mb uint64 = 1_048_576`). -/
def Mb : ℚ := 1048576

/-- The observable gauge callback from the source: given the current
`memStats.Alloc` in bytes, it observes the allocated memory in MB. -/
def gaugeCallback (allocBytes : ℚ) : ℚ := allocBytes / Mb

/-- The error value the gauge callback returns (`return nil`). -/
def gaugeCallbackErr (_allocBytes : ℚ) : Option String :=
  none

/-- State carried across sampler ticks: the instrument registry and the
values fed to the gauge observer so far. -/
structure SamplerState where
  registry : Registry
  observations : List ℚ
deriving DecidableEq, Repr

/-- Outcome of one execution of the loop body: either the loop proceeds
to wait for the next tick, or it exits. -/
inductive BodyResult where
  | continueWith (s : SamplerState)
  | exitLoop
deriving DecidableEq, Repr

/-- One tick of the sampler loop: attempt the gauge registration (the
error is discarded), invoke the callback on the current allocated-bytes
reading, and go wait for the next tick. No branch of the source body
returns, breaks or panics, so the result is always `continueWith`. -/
def samplerTickBody (s : SamplerState) (allocBytes : ℚ) : BodyResult :=
  BodyResult.continueWith
    ⟨registerOrKeep s.registry gaugeName gaugeUnit,
     s.observations ++ [gaugeCallback allocBytes]⟩

/-- Sampler state after `n` ticks, given the stream of allocated-bytes
readings. -/
def samplerStates (mems : Nat → ℚ) : Nat → SamplerState
  | 0 => ⟨mainRegistry, []⟩
  | n + 1 =>
      match samplerTickBody (samplerStates mems n) (mems n) with
      | BodyResult.continueWith s => s
      | BodyResult.exitLoop => samplerStates mems n

/-- C4: for every stream of memory readings and every tick `n`, the loop
body at tick `n` never exits the loop (so tick `n + 1` still fires, in
particular after the failed re-registrations of every tick past the
first), the callback is fed the current reading converted to MB, and the
callback reports no error. -/
theorem c4_sampler_keeps_ticking :
    ∀ (mems : Nat → ℚ) (n : Nat),
      samplerTickBody (samplerStates mems n) (mems n)
        ≠ BodyResult.exitLoop ∧
      (samplerStates mems (n + 1)).observations
        = (samplerStates mems n).observations ++ [gaugeCallback (mems n)] ∧
      gaugeCallbackErr (mems n) = none := by
  intro mems n
  refine ⟨by simp [samplerTickBody], ?_, rfl⟩
  show (match samplerTickBody (samplerStates mems n) (mems n) with
        | BodyResult.continueWith s => s
        | BodyResult.exitLoop => samplerStates mems n).observations
      = (samplerStates mems n).observations ++ [gaugeCallback (mems n)]
  rfl

/-! ### Counter.Add (C6)

`helloWorldHandler` calls `errorCounter.Add(r.Context(), 1)`. The
counter implementation is in the SDK, outside this repository. -/

/-- Per-call failure of `Counter.Add`, per the specification taxonomy. -/
inductive AddError where
  | invalidArgument
deriving DecidableEq, Repr

/-- Modelled from the spec: `Counter.Add(context, delta)` requires
`delta ≥ 0` and fails with `InvalidArgument` otherwise, leaving the
stored value unchanged; the counter implementation is in the SDK, not in
this repository. Returns the new stored value and the per-call error. -/
def counterAdd (stored delta : Int) : Int × Option AddError :=
  if delta < 0 then (stored, some AddError.invalidArgument)
  else (stored + delta, none)

/-- Stored counter value after a sequence of `Add` calls. -/
def counterRun (stored : Int) (deltas : List Int) : Int :=
  deltas.foldl (fun s d => (counterAdd s d).1) stored

/-- The constant delta `helloWorldHandler` passes to
`errorCounter.Add`. -/
def helloErrorDelta : Int := 1

theorem counterAdd_mono (s d : Int) : s ≤ (counterAdd s d).1 := by
  unfold counterAdd
  split
  · exact le_refl s
  · dsimp only
    omega

theorem counterRun_mono (deltas : List Int) (s : Int) : s ≤ counterRun s deltas := by
  induction deltas generalizing s with
  | nil => exact le_refl s
  | cons d ds ih =>
      exact le_trans (counterAdd_mono s d) (ih (counterAdd s d).1)

/-- C6: a negative delta always fails with `invalidArgument` and leaves
the stored value unchanged; a delta ≥ 0 is accepted and adds; the
constant delta 1 used by `helloWorldHandler` is accepted; and over any
sequence of `Add` calls the stored value is monotonically
non-decreasing. -/
theorem c6_counter_add :
    (∀ s d : Int, d < 0 → counterAdd s d = (s, some AddError.invalidArgument)) ∧
    (∀ s d : Int, 0 ≤ d → counterAdd s d = (s + d, none)) ∧
    (∀ s : Int, counterAdd s helloErrorDelta = (s + 1, none)) ∧
    (∀ (s : Int) (deltas : List Int), s ≤ counterRun s deltas) := by
  refine ⟨?_, ?_, ?_, ?_⟩
  · intro s d hd
    unfold counterAdd
    simp [hd]
  · intro s d hd
    unfold counterAdd
    rw [if_neg (by omega)]
  · intro s
    unfold counterAdd helloErrorDelta
    rw [if_neg (by omega)]
  · intro s deltas
    exact counterRun_mono deltas s

/-- Witness for C6 at concrete inputs: delta −3 rejected without change,
delta 2 accepted, the handler delta accepted, and monotonicity over a
concrete call sequence. -/
theorem c6_witness :
    counterAdd 7 (-3) = (7, some AddError.invalidArgument) ∧
    counterAdd 7 2 = (9, none) ∧
    counterAdd 7 helloErrorDelta = (8, none) ∧
    (7 : Int) ≤ counterRun 7 [1, -3, 2] := by
  refine ⟨c6_counter_add.1 7 (-3) (by decide), ?_, c6_counter_add.2.2.1 7,
    c6_counter_add.2.2.2 7 [1, -3, 2]⟩
  have h := c6_counter_add.2.1 7 2 (by decide)
  simpa using h

/-! ### Startup wiring in `main` (C7, C8)

`main` creates one gRPC client connection, builds the resource, wires
the trace provider and the meter provider to that connection, creates
the three instruments, and starts the HTTP server; every error along the
way goes through `log.Fatal` (for the trace exporter, `log.Fatalf`
inside `initTraceProvider` itself). Whether each external call succeeds
is an input to the model; connection handles are numbered so that
"established exactly once" and "same connection reused" are visible. -/

/-- Which of the fallible startup calls succeed in a given run. -/
structure Env where
  grpcConnOk : Bool
  resourceOk : Bool
  traceExporterOk : Bool
  metricExporterOk : Bool
  errorCounterOk : Bool
  latencyHistogramOk : Bool
  itemGaugeOk : Bool
deriving DecidableEq, Repr

/-- Count of gRPC client connections created so far in the process. -/
structure GrpcState where
  connsCreated : Nat
deriving DecidableEq, Repr

/-- `initGrpcConn`: calls `grpc.NewClient` once; on success returns the
new connection handle (numbered by creation order), on failure the
wrapped error. -/
def initGrpcConn (env : Env) (g : GrpcState) : GrpcState × Except String Nat :=
  if env.grpcConnOk then (⟨g.connsCreated + 1⟩, Except.ok g.connsCreated)
  else (g, Except.error "failed to create gRPC connection to collector")

/-- `initTraceProvider`: creates the OTLP trace exporter over the given
connection (`otlptracegrpc.WithGRPCConn conn`); on exporter failure the
source calls `log.Fatalf` directly, modelled as an error that `main`
turns into a fatal exit. On success the provider is wired to `conn`. -/
def initTraceProvider (env : Env) (conn : Nat) : Except String Nat :=
  if env.traceExporterOk then Except.ok conn
  else Except.error "Failed to create exporter"

/-- `initMeterProvider`: creates the OTLP metric exporter over the given
connection (`otlpmetricgrpc.WithGRPCConn conn`); returns an error on
failure. On success the provider is wired to `conn`. -/
def initMeterProvider (env : Env) (conn : Nat) : Except String Nat :=
  if env.metricExporterOk then Except.ok conn
  else Except.error "failed to create metrics exporter"

/-- The wiring `main` has established when it reaches the serving stage:
the connection from `initGrpcConn`, the connections the two providers
were wired to, and how many connections were created in total. -/
structure Wiring where
  conn : Nat
  traceProviderConn : Nat
  meterProviderConn : Nat
  connsCreated : Nat
deriving DecidableEq, Repr

/-- How a run of `main` ends: a `log.Fatal` exit with a message, or
serving HTTP with the given wiring. -/
inductive MainResult where
  | fatalExit (msg : String)
  | serving (w : Wiring)
deriving DecidableEq, Repr

/-- The startup sequence of `main`, in source order: gRPC connection,
resource, trace provider, meter provider, error counter, latency
histogram, item gauge; any error is fatal. -/
def runMain (env : Env) : MainResult :=
  let g0 : GrpcState := ⟨0⟩
  match initGrpcConn env g0 with
  | (_, Except.error e) => MainResult.fatalExit e
  | (g1, Except.ok conn) =>
    if ¬env.resourceOk then MainResult.fatalExit "resource error" else
    match initTraceProvider env conn with
    | Except.error e => MainResult.fatalExit e
    | Except.ok traceConn =>
      match initMeterProvider env conn with
      | Except.error e => MainResult.fatalExit e
      | Except.ok meterConn =>
        if ¬env.errorCounterOk then MainResult.fatalExit "instrument error" else
        if ¬env.latencyHistogramOk then MainResult.fatalExit "instrument error" else
        if ¬env.itemGaugeOk then MainResult.fatalExit "instrument error" else
        MainResult.serving ⟨conn, traceConn, meterConn, g1.connsCreated⟩

/-- C7: whenever `main` reaches the serving stage, exactly one gRPC
connection was created, and both the trace provider and the meter
provider are wired to that same connection; moreover each provider
initializer, when it succeeds, uses exactly the connection it was
given. -/
theorem c7_single_connection_reused :
    (∀ (env : Env) (w : Wiring), runMain env = MainResult.serving w →
      w.connsCreated = 1 ∧ w.traceProviderConn = w.conn ∧ w.meterProviderConn = w.conn) ∧
    (∀ (env : Env) (conn c : Nat), initTraceProvider env conn = Except.ok c → c = conn) ∧
    (∀ (env : Env) (conn c : Nat), initMeterProvider env conn = Except.ok c → c = conn) := by
  refine ⟨?_, ?_, ?_⟩
  · intro env w h
    unfold runMain initGrpcConn initTraceProvider initMeterProvider at h
    cases hc : env.grpcConnOk <;> rw [hc] at h <;> simp at h
    cases hr : env.resourceOk <;> rw [hr] at h <;> simp at h
    cases ht : env.traceExporterOk <;> rw [ht] at h <;> simp at h
    cases hm : env.metricExporterOk <;> rw [hm] at h <;> simp at h
    cases he : env.errorCounterOk <;> rw [he] at h <;> simp at h
    cases hl : env.latencyHistogramOk <;> rw [hl] at h <;> simp at h
    cases hi : env.itemGaugeOk <;> rw [hi] at h <;> simp at h
    rw [← h]
    exact ⟨rfl, rfl, rfl⟩
  · intro env conn c h
    unfold initTraceProvider at h
    split at h
    · cases h; rfl
    · exact absurd h (by simp)
  · intro env conn c h
    unfold initMeterProvider at h
    split at h
    · cases h; rfl
    · exact absurd h (by simp)

/-- Witness for C7: the all-successful environment serves with one
connection, handle 0, wired to both providers. -/
theorem c7_witness :
    (⟨0, 0, 0, 1⟩ : Wiring).connsCreated = 1 ∧
    (⟨0, 0, 0, 1⟩ : Wiring).traceProviderConn = (⟨0, 0, 0, 1⟩ : Wiring).conn ∧
    (⟨0, 0, 0, 1⟩ : Wiring).meterProviderConn = (⟨0, 0, 0, 1⟩ : Wiring).conn :=
  c7_single_connection_reused.1 ⟨true, true, true, true, true, true, true⟩
    ⟨0, 0, 0, 1⟩ rfl

/-! ### helloWorldHandler (C10) and the steady-state half of C8

`helloWorldHandler` starts a span, defers its end, defers one latency
histogram record, draws `rand.Float64()`, and on a draw < 0.5 responds
500 via `http.Error`, increments `errorCounter` by 1 and sets the span
attribute `helloWorldHandler.error = true` (with `http.status = 500`);
otherwise it sets `helloWorldHandler.error = false` (`http.status =
200`) and responds 200 with body "Hello, World!". The random draw is an
input to the model (`isError` = draw < 0.5), as is the measured request
latency. -/

/-- Telemetry state the handlers touch: the stored value of
`errorCounter` and the latencies recorded to `latencyHistogram`. -/
structure AppState where
  errorCount : Int
  latencies : List ℚ
deriving DecidableEq, Repr

/-- The span attributes `helloWorldHandler` sets before the span ends. -/
structure HelloSpanAttrs where
  errorAttr : Bool
  statusAttr : Int
deriving DecidableEq, Repr

/-- `recordLatencyHistogram`: records the measured request latency into
the histogram (deferred to run once when the handler returns). -/
def recordLatencyHistogram (lat : ℚ) (st : AppState) : AppState :=
  ⟨st.errorCount, st.latencies ++ [lat]⟩

/-- `helloWorldHandler` as a function of the random draw (`isError` ⟺
`rand.Float64() < 0.5`), the measured latency and the telemetry state;
returns the new telemetry state, the HTTP response and the span
attributes set on the handler span. -/
def helloWorldHandler (isError : Bool) (lat : ℚ) (st : AppState) :
    AppState × HttpResponse × HelloSpanAttrs :=
  if isError then
    let st1 : AppState := ⟨(counterAdd st.errorCount helloErrorDelta).1, st.latencies⟩
    (recordLatencyHistogram lat st1,
     ⟨500, "Internal Server Error" ++ "\n"⟩,
     ⟨true, 500⟩)
  else
    (recordLatencyHistogram lat st,
     ⟨200, "Hello, World!"⟩,
     ⟨false, 200⟩)

/-- C10: every execution of `helloWorldHandler` takes exactly one of two
branches with agreeing effects — status 500 with `errorCounter`
incremented by exactly 1 and span attribute `helloWorldHandler.error =
true`, or status 200 with body "Hello, World!", `errorCounter` unchanged
and `helloWorldHandler.error = false` — the two branches exclude each
other, and in both exactly one latency observation is recorded to the
histogram. -/
theorem c10_hello_branches_agree :
    ∀ (isError : Bool) (lat : ℚ) (st : AppState),
      (((helloWorldHandler isError lat st).2.1.status = 500 ∧
        (helloWorldHandler isError lat st).1.errorCount = st.errorCount + 1 ∧
        (helloWorldHandler isError lat st).2.2.errorAttr = true) ∨
       ((helloWorldHandler isError lat st).2.1.status = 200 ∧
        (helloWorldHandler isError lat st).2.1.body = "Hello, World!" ∧
        (helloWorldHandler isError lat st).1.errorCount = st.errorCount ∧
        (helloWorldHandler isError lat st).2.2.errorAttr = false)) ∧
      ((helloWorldHandler isError lat st).2.1.status = 500 →
        (helloWorldHandler isError lat st).2.1.status = 200 → False) ∧
      (helloWorldHandler isError lat st).1.latencies = st.latencies ++ [lat] := by
  intro isError lat st
  cases isError with
  | true =>
      refine ⟨Or.inl ⟨rfl, ?_, rfl⟩, ?_, rfl⟩
      · show (counterAdd st.errorCount helloErrorDelta).1 = st.errorCount + 1
        unfold counterAdd helloErrorDelta
        rw [if_neg (by omega)]
      · intro h5 h2
        rw [h5] at h2
        exact absurd h2 (by decide)
  | false =>
      refine ⟨Or.inr ⟨rfl, rfl, rfl, rfl⟩, ?_, rfl⟩
      intro h5 h2
      rw [h5] at h2
      exact absurd h2 (by decide)

/-- Witness for C10 on the error branch with a concrete latency and
state. -/
theorem c10_witness :
    (((helloWorldHandler true 1 ⟨0, []⟩).2.1.status = 500 ∧
      (helloWorldHandler true 1 ⟨0, []⟩).1.errorCount = (0 : Int) + 1 ∧
      (helloWorldHandler true 1 ⟨0, []⟩).2.2.errorAttr = true) ∨
     ((helloWorldHandler true 1 ⟨0, []⟩).2.1.status = 200 ∧
      (helloWorldHandler true 1 ⟨0, []⟩).2.1.body = "Hello, World!" ∧
      (helloWorldHandler true 1 ⟨0, []⟩).1.errorCount = (0 : Int) ∧
      (helloWorldHandler true 1 ⟨0, []⟩).2.2.errorAttr = false)) ∧
    ((helloWorldHandler true 1 ⟨0, []⟩).2.1.status = 500 →
      (helloWorldHandler true 1 ⟨0, []⟩).2.1.status = 200 → False) ∧
    (helloWorldHandler true 1 ⟨0, []⟩).1.latencies = [] ++ [(1 : ℚ)] :=
  c10_hello_branches_agree true 1 ⟨0, []⟩

/-- C8: every startup-time wiring failure (gRPC connection, resource,
trace or meter provider initialization, or creation of the counter,
histogram or gauge instruments) makes `main` exit fatally; in steady
state, the HTTP response of each handler does not depend on the
telemetry state at all (telemetry never fails the request path), and the
cart handlers always respond 200. -/
theorem c8_startup_fatal_steady_absorbed :
    (∀ env : Env,
      env.grpcConnOk = false ∨ env.resourceOk = false ∨ env.traceExporterOk = false ∨
      env.metricExporterOk = false ∨ env.errorCounterOk = false ∨
      env.latencyHistogramOk = false ∨ env.itemGaugeOk = false →
      ∃ msg, runMain env = MainResult.fatalExit msg) ∧
    (∀ (isError : Bool) (lat lat' : ℚ) (st st' : AppState),
      (helloWorldHandler isError lat st).2.1 = (helloWorldHandler isError lat' st').2.1) ∧
    (∀ s : CartState, (cartAddHandler s).2.status = 200 ∧
      (cartRemoveHandler s).2.status = 200) := by
  refine ⟨?_, ?_, ?_⟩
  · intro env h
    unfold runMain initGrpcConn initTraceProvider initMeterProvider
    cases hc : env.grpcConnOk <;> simp
    cases hr : env.resourceOk <;> simp
    cases ht : env.traceExporterOk <;> simp
    cases hm : env.metricExporterOk <;> simp
    cases he : env.errorCounterOk <;> simp
    cases hl : env.latencyHistogramOk <;> simp
    cases hi : env.itemGaugeOk <;> simp
    rw [hc, hr, ht, hm, he, hl, hi] at h
    simp at h
  · intro isError lat lat' st st'
    cases isError <;> rfl
  · intro s
    exact ⟨rfl, rfl⟩

/-- Witness for C8: a run with a failing gRPC connection exits
fatally. -/
theorem c8_witness :
    ∃ msg, runMain ⟨false, true, true, true, true, true, true⟩ = MainResult.fatalExit msg :=
  c8_startup_fatal_steady_absorbed.1 ⟨false, true, true, true, true, true, true⟩
    (Or.inl rfl)

/-! ### Span recorder (C9)

Each handler calls `tracer.Start(r.Context(), name)` and defers
`span.End()`. The span implementation lives in the OpenTelemetry SDK,
outside this repository, so the recorder is modelled from the
specification (spec sections 3 and 4.2): starting a span with no active
span in the context opens a new trace with a root span; starting one
under an active span links a child in the same trace; ending a span
finalizes its end timestamp at the current clock. Each event carries the
(non-negative) time elapsed since the previous event, so the clock is
monotone. -/

/-- One span record: name, trace it belongs to, optional parent span
index, start timestamp, and end timestamp (unset while open). -/
structure SpanRec where
  name : String
  traceId : Nat
  parent : Option Nat
  startTime : Nat
  endTime : Option Nat
deriving DecidableEq, Repr

/-- Span recorder state: the clock, the stack of open spans on the
active call path (span index and trace id, innermost first), every span
created so far, and the next fresh trace id. -/
structure TraceState where
  now : Nat
  stack : List (Nat × Nat)
  spans : List SpanRec
  nextTraceId : Nat
deriving DecidableEq, Repr

/-- A recorder call: `tracer.Start` with a span name, or `span.End` on
the innermost open span; `dt` is the time elapsed since the previous
call. -/
inductive SpanEvent where
  | startSpan (nm : String) (dt : Nat)
  | endSpan (dt : Nat)
deriving DecidableEq, Repr

/-- Modelled from the spec: `StartSpan(parentContext, name)` opens a
span at the current time, as a root of a fresh trace when no span is
active in the context, else as a child of the active span in the same
trace; the span lifecycle is implemented by the SDK, not in this
repository. -/
def startSpanOp (s : TraceState) (nm : String) (dt : Nat) : TraceState :=
  let t := s.now + dt
  match s.stack with
  | [] =>
      ⟨t, [(s.spans.length, s.nextTraceId)],
       s.spans ++ [⟨nm, s.nextTraceId, none, t, none⟩], s.nextTraceId + 1⟩
  | (i, tid) :: rest =>
      ⟨t, (s.spans.length, tid) :: (i, tid) :: rest,
       s.spans ++ [⟨nm, tid, some i, t, none⟩], s.nextTraceId⟩

/-- Modelled from the spec: `EndSpan(span)` finalizes the end timestamp
of the innermost open span at the current time; a call with no open span
is a logged usage error, not fatal. The SDK implements this, not this
repository. -/
def endSpanOp (s : TraceState) (dt : Nat) : TraceState :=
  let t := s.now + dt
  match s.stack with
  | [] => ⟨t, [], s.spans, s.nextTraceId⟩
  | (i, _) :: rest =>
      match s.spans[i]? with
      | none => ⟨t, rest, s.spans, s.nextTraceId⟩
      | some sp =>
          ⟨t, rest,
           s.spans.set i ⟨sp.name, sp.traceId, sp.parent, sp.startTime, some t⟩,
           s.nextTraceId⟩

/-- Dispatch one recorder call. -/
def spanStep (s : TraceState) (e : SpanEvent) : TraceState :=
  match e with
  | SpanEvent.startSpan nm dt => startSpanOp s nm dt
  | SpanEvent.endSpan dt => endSpanOp s dt

/-- The recorder state before any call. -/
def spanInit : TraceState := ⟨0, [], [], 0⟩

/-- Run a sequence of recorder calls from the initial state. -/
def spanRun (evs : List SpanEvent) : TraceState :=
  evs.foldl spanStep spanInit

/-- Whether a span is a root span of the given trace. -/
def isRoot (tid : Nat) (sp : SpanRec) : Bool :=
  decide (sp.traceId = tid ∧ sp.parent = none)

/-- Number of root spans of the given trace. -/
def rootCount (st : TraceState) (tid : Nat) : Nat :=
  st.spans.countP (isRoot tid)

/-- Recorder invariant: every span started no later than now, every
closed span closed between its start and now, every span in an
allocated trace; every allocated trace has exactly one root span; the
open-span stack holds valid span indices and allocated trace ids. -/
def SpanInv (st : TraceState) : Prop :=
  (∀ sp ∈ st.spans,
      sp.startTime ≤ st.now ∧
      (∀ e, sp.endTime = some e → sp.startTime ≤ e ∧ e ≤ st.now) ∧
      sp.traceId < st.nextTraceId) ∧
  (∀ tid, tid < st.nextTraceId → rootCount st tid = 1) ∧
  (∀ p ∈ st.stack, p.1 < st.spans.length ∧ p.2 < st.nextTraceId)

theorem countP_set_of_pred_eq {α : Type} (p : α → Bool) (l : List α) (i : Nat)
    (a b : α) (hget : l[i]? = some a) (hpred : p b = p a) :
    (l.set i b).countP p = l.countP p := by
  induction l generalizing i with
  | nil => simp at hget
  | cons x xs ih =>
      cases i with
      | zero =>
          have hx : x = a := by simpa using hget
          subst hx
          simp [List.countP_cons, hpred]
      | succ j =>
          have hg : xs[j]? = some a := by simpa using hget
          have hset : List.set (x :: xs) (j + 1) b = x :: xs.set j b := rfl
          rw [hset, List.countP_cons, List.countP_cons, ih j hg]

theorem countP_isRoot_eq_zero (spans : List SpanRec) (tid next : Nat)
    (h : ∀ sp ∈ spans, sp.traceId < next) (htid : next ≤ tid) :
    spans.countP (isRoot tid) = 0 := by
  apply List.countP_eq_zero.mpr
  intro sp hsp
  simp only [isRoot, decide_eq_true_eq]
  intro hc
  obtain ⟨h1, _⟩ := hc
  have := h sp hsp
  omega

theorem startSpanOp_inv (st : TraceState) (nm : String) (dt : Nat)
    (h : SpanInv st) : SpanInv (startSpanOp st nm dt) := by
  obtain ⟨now, stack, spans, next⟩ := st
  unfold SpanInv at h
  dsimp only at h
  obtain ⟨hspans, hroots, hstack⟩ := h
  cases stack with
  | nil =>
      simp only [startSpanOp]
      unfold SpanInv
      dsimp only
      refine ⟨?_, ?_, ?_⟩
      · intro sp hsp
        rcases List.mem_append.mp hsp with hold | hnew
        · obtain ⟨h1, h2, h3⟩ := hspans sp hold
          exact ⟨by omega,
                 fun e he => ⟨(h2 e he).1, by have := (h2 e he).2; omega⟩,
                 by omega⟩
        · have heq : sp = ⟨nm, next, none, now + dt, none⟩ := by simpa using hnew
          subst heq
          exact ⟨le_refl _, fun e he => absurd he (by simp),
                 by show next < next + 1; omega⟩
      · intro tid htid
        show (spans ++ [(⟨nm, next, none, now + dt, none⟩ : SpanRec)]).countP (isRoot tid) = 1
        rw [List.countP_append]
        by_cases hcase : tid < next
        · have h1 : spans.countP (isRoot tid) = 1 := hroots tid hcase
          have h2 : isRoot tid ⟨nm, next, none, now + dt, none⟩ = false := by
            simp only [isRoot, decide_eq_false_iff_not]
            intro hc
            obtain ⟨hc1, _⟩ := hc
            have hx : next = tid := hc1
            omega
          rw [h1]
          simp [List.countP_cons, h2]
        · have htn : tid = next := by omega
          subst htn
          have h1 : spans.countP (isRoot tid) = 0 :=
            countP_isRoot_eq_zero spans tid tid (fun sp hsp => (hspans sp hsp).2.2)
              (le_refl tid)
          have h2 : isRoot tid ⟨nm, tid, none, now + dt, none⟩ = true := by
            simp [isRoot]
          rw [h1]
          simp [List.countP_cons, h2]
      · intro p hp
        have hpe : p = (spans.length, next) := by simpa using hp
        subst hpe
        simp
  | cons hd rest =>
      obtain ⟨i, tid⟩ := hd
      have hhd := hstack (i, tid) (by simp)
      dsimp only at hhd
      simp only [startSpanOp]
      unfold SpanInv
      dsimp only
      refine ⟨?_, ?_, ?_⟩
      · intro sp hsp
        rcases List.mem_append.mp hsp with hold | hnew
        · obtain ⟨h1, h2, h3⟩ := hspans sp hold
          exact ⟨by omega,
                 fun e he => ⟨(h2 e he).1, by have := (h2 e he).2; omega⟩,
                 h3⟩
        · have heq : sp = ⟨nm, tid, some i, now + dt, none⟩ := by simpa using hnew
          subst heq
          exact ⟨le_refl _, fun e he => absurd he (by simp), hhd.2⟩
      · intro tid' htid'
        show (spans ++ [(⟨nm, tid, some i, now + dt, none⟩ : SpanRec)]).countP (isRoot tid') = 1
        rw [List.countP_append]
        have h1 : spans.countP (isRoot tid') = 1 := hroots tid' htid'
        have h2 : isRoot tid' ⟨nm, tid, some i, now + dt, none⟩ = false := by
          simp [isRoot]
        rw [h1]
        simp [List.countP_cons, h2]
      · intro p hp
        rcases List.mem_cons.mp hp with h1 | h2
        · subst h1
          exact ⟨by simp, hhd.2⟩
        · have hold := hstack p h2
          exact ⟨by simp only [List.length_append, List.length_cons]; omega, hold.2⟩

theorem endSpanOp_inv (st : TraceState) (dt : Nat) (h : SpanInv st) :
    SpanInv (endSpanOp st dt) := by
  obtain ⟨now, stack, spans, next⟩ := st
  unfold SpanInv at h
  dsimp only at h
  obtain ⟨hspans, hroots, hstack⟩ := h
  cases stack with
  | nil =>
      simp only [endSpanOp]
      unfold SpanInv
      dsimp only
      refine ⟨?_, ?_, ?_⟩
      · intro sp hsp
        obtain ⟨h1, h2, h3⟩ := hspans sp hsp
        exact ⟨by omega,
               fun e he => ⟨(h2 e he).1, by have := (h2 e he).2; omega⟩,
               h3⟩
      · intro tid htid
        exact hroots tid htid
      · intro p hp
        exact absurd hp (by simp)
  | cons hd rest =>
      obtain ⟨i, tid⟩ := hd
      have hi := hstack (i, tid) (by simp)
      dsimp only at hi
      cases hget : spans[i]? with
      | none =>
          exfalso
          have hlen := List.getElem?_eq_none_iff.mp hget
          have := hi.1
          omega
      | some sp =>
          have hmem : sp ∈ spans := List.getElem?_mem hget
          obtain ⟨hs1, hs2, hs3⟩ := hspans sp hmem
          simp only [endSpanOp]
          rw [hget]
          show SpanInv ⟨now + dt, rest,
            spans.set i ⟨sp.name, sp.traceId, sp.parent, sp.startTime, some (now + dt)⟩,
            next⟩
          unfold SpanInv
          dsimp only
          refine ⟨?_, ?_, ?_⟩
          · intro q hq
            rcases List.mem_or_eq_of_mem_set hq with hold | heq
            · obtain ⟨h1, h2, h3⟩ := hspans q hold
              exact ⟨by omega,
                     fun e he => ⟨(h2 e he).1, by have := (h2 e he).2; omega⟩,
                     h3⟩
            · subst heq
              refine ⟨by dsimp only; omega, ?_, hs3⟩
              intro e he
              have hee : e = now + dt := by simpa using he.symm
              subst hee
              exact ⟨by dsimp only; omega, le_refl _⟩
          · intro tid' htid'
            show (spans.set i
                (⟨sp.name, sp.traceId, sp.parent, sp.startTime, some (now + dt)⟩ : SpanRec)).countP
                (isRoot tid') = 1
            rw [countP_set_of_pred_eq (isRoot tid') spans i sp
              ⟨sp.name, sp.traceId, sp.parent, sp.startTime, some (now + dt)⟩ hget rfl]
            exact hroots tid' htid'
          · intro p hp
            have hold := hstack p (List.mem_cons_of_mem _ hp)
            exact ⟨by rw [List.length_set]; exact hold.1, hold.2⟩

theorem spanStep_inv (st : TraceState) (e : SpanEvent) (h : SpanInv st) :
    SpanInv (spanStep st e) := by
  cases e with
  | startSpan nm dt => exact startSpanOp_inv st nm dt h
  | endSpan dt => exact endSpanOp_inv st dt h

theorem foldl_spanStep_inv (evs : List SpanEvent) (st : TraceState)
    (h : SpanInv st) : SpanInv (evs.foldl spanStep st) := by
  induction evs generalizing st with
  | nil => exact h
  | cons e es ih => exact ih (spanStep st e) (spanStep_inv st e h)

theorem spanInit_inv : SpanInv spanInit := by
  unfold SpanInv spanInit
  refine ⟨?_, ?_, ?_⟩
  · intro sp hsp
    exact absurd hsp (by simp)
  · intro tid htid
    exact absurd htid (by simp)
  · intro p hp
    exact absurd hp (by simp)

/-- C9: for every sequence of StartSpan/EndSpan calls respecting
nesting (the model treats EndSpan with no open span as a logged no-op,
so in fact for every sequence — in particular each handler's
`tracer.Start` followed by the deferred `span.End`), every closed span's
end timestamp is ≥ its start timestamp, and every allocated trace has
exactly one root span. -/
theorem c9_span_end_after_start_one_root :
    ∀ evs : List SpanEvent,
      (∀ sp ∈ (spanRun evs).spans, ∀ e, sp.endTime = some e → sp.startTime ≤ e) ∧
      (∀ tid, tid < (spanRun evs).nextTraceId → rootCount (spanRun evs) tid = 1) := by
  intro evs
  have h := foldl_spanStep_inv evs spanInit spanInit_inv
  unfold SpanInv at h
  exact ⟨fun sp hsp e he => ((h.1 sp hsp).2.1 e he).1, h.2.1⟩

/-- The handler pattern of this program: one `tracer.Start` then the
deferred `span.End`, with some elapsed time in between. -/
def demoSpanEvents : List SpanEvent :=
  [SpanEvent.startSpan "helloWorldHandler" 3, SpanEvent.endSpan 4]

/-- Witness for C9 on the handler pattern: the one recorded span ends at
7 ≥ its start 3, and trace 0 has exactly one root span. -/
theorem c9_witness :
    SpanRec.startTime ⟨"helloWorldHandler", 0, none, 3, some 7⟩ ≤ 7 ∧
    rootCount (spanRun demoSpanEvents) 0 = 1 := by
  constructor
  · exact (c9_span_end_after_start_one_root demoSpanEvents).1
      ⟨"helloWorldHandler", 0, none, 3, some 7⟩ (by decide) 7 rfl
  · exact (c9_span_end_after_start_one_root demoSpanEvents).2 0 (by decide)

end OtelDemo
